import Mathlib

set_option maxRecDepth 8000

/-!
Verification development for the assistant backend (train-status fallback
engine in `train_tracking.py`, and the AI routing / drafting / briefing
engine in `grok_ai.py`).

The Python code is embedded shallowly:
* Python strings are `String` / `List Char`; the JSON values produced by
  `json.loads` are the inductive `Json` below, with a faithful executable
  parser (`jsonParse`).
* Network effects are an environment: each function that performs one
  upstream HTTP call takes the outcome of that call (a raised exception, or
  a status code together with the raw response body) as an input.
* A Python `try`/`except` around an operation is modelled by `Option`
  results on the fallible operation; the `except` branch is the `none` case.
* `random.*` calls are modelled by environment-supplied numbers, reduced
  into the ranges `randint`/`choice` guarantee.
* `datetime.now().strftime(...)` values are environment-supplied strings.
-/

/-! ### Character classes and Python string helpers -/

/-- The whitespace characters of Python `str.strip()` and of the ASCII part
of the regex class backslash-s: space, tab, newline, carriage return,
vertical tab, form feed.  (Non-ASCII Unicode whitespace is not modelled.) -/
def isWsPy (c : Char) : Bool :=
  c == ' ' || c == '\t' || c == '\n' || c == '\r' || c == '\x0b' || c == '\x0c'

/-- The whitespace JSON itself allows between tokens (as `json.loads` does):
space, tab, newline, carriage return. -/
def isJsonWs (c : Char) : Bool :=
  c == ' ' || c == '\t' || c == '\n' || c == '\r'

def isDigitC (c : Char) : Bool := '0' ≤ c && c ≤ '9'

def digitVal (c : Char) : Nat := c.toNat - '0'.toNat

def isHexC (c : Char) : Bool :=
  isDigitC c || ('a' ≤ c && c ≤ 'f') || ('A' ≤ c && c ≤ 'F')

def hexVal (c : Char) : Nat :=
  if isDigitC c then digitVal c
  else if 'a' ≤ c && c ≤ 'f' then c.toNat - 'a'.toNat + 10
  else c.toNat - 'A'.toNat + 10

def digitsToNat (l : List Char) : Nat := l.foldl (fun a c => a * 10 + digitVal c) 0

/-- `pfx p l` : `p` is a prefix of `l` (Boolean, by direct recursion). -/
def pfx : List Char → List Char → Bool
  | [], _ => true
  | _ :: _, [] => false
  | a :: as, b :: bs => a == b && pfx as bs

/-- `hasChar c l` : the character `c` occurs in `l`. -/
def hasChar (c : Char) : List Char → Bool
  | [] => false
  | x :: t => x == c || hasChar c t

/-- Python `str.strip()` (with no argument): remove leading and trailing
whitespace. -/
def pyStripChars (l : List Char) : List Char :=
  ((l.dropWhile isWsPy).reverse.dropWhile isWsPy).reverse

/-- Auxiliary recursion for Python `str.replace(old, "")`: scan left to
right, removing non-overlapping occurrences of `pat`.  The fuel is the
length of the string; every step consumes at least one character. -/
def removeAllAux : Nat → List Char → List Char → List Char
  | 0, _, s => s
  | f + 1, pat, s =>
    if pfx pat s && !pat.isEmpty then removeAllAux f pat (s.drop pat.length)
    else
      match s with
      | [] => []
      | c :: t => c :: removeAllAux f pat t

/-- Python `s.replace(pat, "")` for a non-empty `pat`. -/
def removeAll (pat s : List Char) : List Char := removeAllAux s.length pat s

/-! ### JSON values and a model of Python `json.loads` -/

/-- A JSON value as produced by Python `json.loads`.

A number is stored as a scaled decimal `num m e` with value `m * 10 ^ e`;
`json.loads` distinguishes `int` from `float` (and parses floats to IEEE
doubles), which this model merges into exact decimals — no claim in this
development depends on float rounding.  An object keeps its members in
source order, possibly with duplicate keys; lookups (`lookupLast`) take the
last binding, which is what building a Python `dict` does. -/
inductive Json where
  | null : Json
  | bool : Bool → Json
  | num : Int → Int → Json
  | str : String → Json
  | arr : List Json → Json
  | obj : List (String × Json) → Json

/-- The last binding of key `k` (Python `dict` semantics for duplicates). -/
def lookupLast (fs : List (String × Json)) (k : String) : Option Json :=
  match fs with
  | [] => none
  | (k2, v) :: t =>
    match lookupLast t k with
    | some r => some r
    | none => if k2 == k then some v else none

/-- Python `d[k]` on a parsed JSON value: `none` models the raised
`KeyError`/`TypeError` that a surrounding `except` catches. -/
def jGet (j : Json) (k : String) : Option Json :=
  match j with
  | Json.obj fs => lookupLast fs k
  | _ => none

/-- Python `d.get(k, default)` on an object's member list. -/
def pyGet (fs : List (String × Json)) (k : String) (d : Json) : Json :=
  match lookupLast fs k with
  | some v => v
  | none => d

/-- Lookup with `Json.null` (Python `None`) as the default. -/
def jGetD (fs : List (String × Json)) (k : String) : Json :=
  pyGet fs k Json.null

/-- Python truthiness of a parsed JSON value. -/
def pyTruthyJson : Json → Bool
  | Json.null => false
  | Json.bool b => b
  | Json.num m _ => !(m == 0)
  | Json.str s => !(s == "")
  | Json.arr xs => !xs.isEmpty
  | Json.obj fs => !fs.isEmpty

/-- Python truthiness of `os.environ.get(...)`: `None` and the empty string
are falsy. -/
def pyTruthyStr : Option String → Bool
  | none => false
  | some s => !(s == "")

/-- The body of a JSON string after its opening quote: returns the decoded
characters and the remaining input.  Escapes are those `json.loads`
accepts; `\uXXXX` becomes the character with that code (surrogate-pair
combination is not modelled).  Unescaped control characters are rejected,
as in strict-mode `json.loads`. -/
def parseStringBody : Nat → List Char → Option (List Char × List Char)
  | 0, _ => none
  | _, [] => none
  | f + 1, c :: t =>
    if c == '"' then some ([], t)
    else if c == '\\' then
      match t with
      | [] => none
      | e :: t2 =>
        if e == '"' then (parseStringBody f t2).map (fun p => ('"' :: p.1, p.2))
        else if e == '\\' then (parseStringBody f t2).map (fun p => ('\\' :: p.1, p.2))
        else if e == '/' then (parseStringBody f t2).map (fun p => ('/' :: p.1, p.2))
        else if e == 'b' then (parseStringBody f t2).map (fun p => ('\x08' :: p.1, p.2))
        else if e == 'f' then (parseStringBody f t2).map (fun p => ('\x0c' :: p.1, p.2))
        else if e == 'n' then (parseStringBody f t2).map (fun p => ('\n' :: p.1, p.2))
        else if e == 'r' then (parseStringBody f t2).map (fun p => ('\r' :: p.1, p.2))
        else if e == 't' then (parseStringBody f t2).map (fun p => ('\t' :: p.1, p.2))
        else if e == 'u' then
          match t2 with
          | h1 :: h2 :: h3 :: h4 :: t3 =>
            if isHexC h1 && isHexC h2 && isHexC h3 && isHexC h4 then
              (parseStringBody f t3).map (fun p =>
                (Char.ofNat (((hexVal h1 * 16 + hexVal h2) * 16 + hexVal h3) * 16 + hexVal h4)
                  :: p.1, p.2))
            else none
          | _ => none
        else none
    else if c.toNat < 32 then none
    else (parseStringBody f t).map (fun p => (c :: p.1, p.2))

/-- A JSON number starting at the head of the input (sign, integer part
with no superfluous leading zero, optional fraction, optional exponent). -/
def parseNumber (l : List Char) : Option (Json × List Char) :=
  let signed : Bool × List Char :=
    match l with
    | '-' :: t => (true, t)
    | _ => (false, l)
  match signed.2 with
  | [] => none
  | c :: t =>
    if !(isDigitC c) then none
    else
      let ids : List Char := if c == '0' then [c] else c :: t.takeWhile isDigitC
      let r1 : List Char := if c == '0' then t else t.dropWhile isDigitC
      let ok0 : Bool :=
        if c == '0' then
          match t with
          | d :: _ => !(isDigitC d)
          | [] => true
        else true
      if !ok0 then none
      else
        match r1 with
        | '.' :: t2 =>
          let fds := t2.takeWhile isDigitC
          if fds.isEmpty then none
          else
            let r2 := t2.dropWhile isDigitC
            let m : Int := ((digitsToNat ids * 10 ^ fds.length + digitsToNat fds : Nat) : Int)
            let m2 : Int := if signed.1 then -m else m
            match r2 with
            | c2 :: t3 =>
              if c2 == 'e' || c2 == 'E' then
                let es : Bool × List Char :=
                  match t3 with
                  | '+' :: u => (false, u)
                  | '-' :: u => (true, u)
                  | _ => (false, t3)
                let eds := es.2.takeWhile isDigitC
                if eds.isEmpty then none
                else
                  let ex : Int := if es.1 then -((digitsToNat eds : Nat) : Int) else ((digitsToNat eds : Nat) : Int)
                  some (Json.num m2 (ex - (fds.length : Int)), es.2.dropWhile isDigitC)
              else some (Json.num m2 (-(fds.length : Int)), c2 :: t3)
            | [] => some (Json.num m2 (-(fds.length : Int)), [])
        | c1 :: t1 =>
          if c1 == 'e' || c1 == 'E' then
            let es : Bool × List Char :=
              match t1 with
              | '+' :: u => (false, u)
              | '-' :: u => (true, u)
              | _ => (false, t1)
            let eds := es.2.takeWhile isDigitC
            if eds.isEmpty then none
            else
              let m : Int := ((digitsToNat ids : Nat) : Int)
              let m2 : Int := if signed.1 then -m else m
              let ex : Int := if es.1 then -((digitsToNat eds : Nat) : Int) else ((digitsToNat eds : Nat) : Int)
              some (Json.num m2 ex, es.2.dropWhile isDigitC)
          else
            let m : Int := ((digitsToNat ids : Nat) : Int)
            some (Json.num (if signed.1 then -m else m) 0, c1 :: t1)
        | [] =>
          let m : Int := ((digitsToNat ids : Nat) : Int)
          some (Json.num (if signed.1 then -m else m) 0, [])

mutual

/-- A JSON value (after optional leading whitespace), fueled. -/
def parseValue : Nat → List Char → Option (Json × List Char)
  | 0, _ => none
  | f + 1, l =>
    match l.dropWhile isJsonWs with
    | [] => none
    | c :: t =>
      if c == '{' then parseObjBody f t
      else if c == '[' then parseArrBody f t
      else if c == '"' then
        (parseStringBody (t.length + 1) t).map (fun p => (Json.str (String.mk p.1), p.2))
      else if c == 't' then
        match t with
        | 'r' :: 'u' :: 'e' :: r => some (Json.bool true, r)
        | _ => none
      else if c == 'f' then
        match t with
        | 'a' :: 'l' :: 's' :: 'e' :: r => some (Json.bool false, r)
        | _ => none
      else if c == 'n' then
        match t with
        | 'u' :: 'l' :: 'l' :: r => some (Json.null, r)
        | _ => none
      else if c == '-' || isDigitC c then parseNumber (c :: t)
      else none

/-- The inside of an object, after the opening brace. -/
def parseObjBody : Nat → List Char → Option (Json × List Char)
  | 0, _ => none
  | f + 1, l =>
    match l.dropWhile isJsonWs with
    | '}' :: r => some (Json.obj [], r)
    | _ => parseMembers f l []

/-- One or more `"key": value` members, comma separated, up to the closing
brace. -/
def parseMembers : Nat → List Char → List (String × Json) → Option (Json × List Char)
  | 0, _, _ => none
  | f + 1, l, acc =>
    match l.dropWhile isJsonWs with
    | '"' :: t =>
      match parseStringBody (t.length + 1) t with
      | none => none
      | some (k, r) =>
        match r.dropWhile isJsonWs with
        | ':' :: r2 =>
          match parseValue f r2 with
          | none => none
          | some (v, r3) =>
            match r3.dropWhile isJsonWs with
            | ',' :: r4 => parseMembers f r4 (acc ++ [(String.mk k, v)])
            | '}' :: r4 => some (Json.obj (acc ++ [(String.mk k, v)]), r4)
            | _ => none
        | _ => none
    | _ => none

/-- The inside of an array, after the opening bracket. -/
def parseArrBody : Nat → List Char → Option (Json × List Char)
  | 0, _ => none
  | f + 1, l =>
    match l.dropWhile isJsonWs with
    | ']' :: r => some (Json.arr [], r)
    | _ => parseElems f l []

/-- One or more array elements, comma separated, up to the closing
bracket. -/
def parseElems : Nat → List Char → List Json → Option (Json × List Char)
  | 0, _, _ => none
  | f + 1, l, acc =>
    match parseValue f l with
    | none => none
    | some (v, r) =>
      match r.dropWhile isJsonWs with
      | ',' :: r2 => parseElems f r2 (acc ++ [v])
      | ']' :: r2 => some (Json.arr (acc ++ [v]), r2)
      | _ => none

end

/-- Python `json.loads`: parse one JSON value and require that only
whitespace follows.  The fuel `4 * length + 8` is enough because every
cycle of the mutual recursion consumes at least one character and spends at
most four units of fuel. -/
def jsonParse (l : List Char) : Option Json :=
  match parseValue (4 * l.length + 8) l with
  | some (v, r) => if (r.dropWhile isJsonWs).isEmpty then some v else none
  | none => none

/-- Python `int(x)` on a parsed JSON value: ints and floats truncate toward
zero, booleans become 0/1, numeric strings (optionally signed, surrounded
by whitespace; digit-group underscores are not modelled) convert, and
everything else raises (`none`). -/
def pyIntStr (s : String) : Option Int :=
  match pyStripChars s.data with
  | '-' :: ds => if !ds.isEmpty && ds.all isDigitC then some (-((digitsToNat ds : Nat) : Int)) else none
  | '+' :: ds => if !ds.isEmpty && ds.all isDigitC then some ((digitsToNat ds : Nat) : Int) else none
  | ds => if !ds.isEmpty && ds.all isDigitC then some ((digitsToNat ds : Nat) : Int) else none

def pyInt : Json → Option Int
  | Json.num m e =>
    if 0 ≤ e then some (m * (10 : Int) ^ e.toNat)
    else some (m.tdiv ((10 : Int) ^ (-e).toNat))
  | Json.bool b => some (if b then 1 else 0)
  | Json.str s => pyIntStr s
  | _ => none

/-! ### The commit-action extractor of `draft_email_interactive`

The code searches the assistant's message with the Python regex

    backslash-lbrace [any]* "action": whitespace* "SEND_EMAIL" [any]* backslash-rbrace

(`re.search`, greedy).  Its match, when one exists, is the span from the
first opening brace that is followed (strictly later) by an occurrence of
the discriminator text with some closing brace after it, to the last
closing brace of the whole message.  `findCommitSpan` computes exactly that
span.  The matched span is then stripped of markdown fences
(`replace` of the fence strings by the empty string), `strip`ped, and
passed to `json.loads`. -/

/-- The literal part of the discriminator before the whitespace: the nine
characters `"action":` (quotes included). -/
def discrimHead : List Char := "\"action\":".data

/-- The literal part of the discriminator after the whitespace: the twelve
characters `"SEND_EMAIL"` (quotes included). -/
def discrimTail : List Char := "\"SEND_EMAIL\"".data

/-- If the discriminator occurs at the head of `l` (its literal head, a
greedy run of whitespace, its literal tail), the length of that occurrence. -/
def occLen (l : List Char) : Option Nat :=
  if pfx discrimHead l then
    if pfx discrimTail
        ((l.drop discrimHead.length).drop
          (((l.drop discrimHead.length).takeWhile isWsPy).length)) then
      some (discrimHead.length + (((l.drop discrimHead.length).takeWhile isWsPy).length)
        + discrimTail.length)
    else none
  else none

/-- Some position of `l` starts a discriminator occurrence that has a
closing brace strictly after it — the condition for the regex to match
starting at a given opening brace. -/
def hasOccBrace : List Char → Bool
  | [] => false
  | c :: t =>
    (match occLen (c :: t) with
     | some n => hasChar '}' ((c :: t).drop n)
     | none => false)
    || hasOccBrace t

/-- The suffix of `l` that starts at the leftmost viable opening brace
(`re.search` tries match starts left to right). -/
def findStart : List Char → Option (List Char)
  | [] => none
  | c :: t => if c == '{' && hasOccBrace t then some (c :: t) else findStart t

/-- The prefix of `l` up to and including its last closing brace (the
greedy trailing `[any]*` backtracks only to the last one). -/
def takeToLastBrace (l : List Char) : List Char :=
  ((l.reverse.dropWhile (fun c => !(c == '}'))).reverse)

/-- The span the greedy regex matches, when it matches. -/
def findCommitSpan (l : List Char) : Option (List Char) :=
  (findStart l).map takeToLastBrace

def fenceJsonPat : List Char := "```json".data

def fencePat : List Char := "```".data

/-- What the code does to the matched span before `json.loads`: remove
every occurrence of the fence strings, then `strip()`. -/
def spanParse (span : List Char) : Option Json :=
  jsonParse (pyStripChars (removeAll fencePat (removeAll fenceJsonPat span)))

/-- The commit object extracted from an assistant message, if the regex
matches and the cleaned span parses. -/
def extractCommit (content : List Char) : Option Json :=
  match findCommitSpan content with
  | none => none
  | some span => spanParse span

/-- The value `draft_email_interactive` returns: either a parsed commit
object (the Python `dict`) or a plain message string. -/
inductive DraftResult where
  | commit : Json → DraftResult
  | text : List Char → DraftResult

/-- Lines 137–152 of `grok_ai.py`: if the regex matches, try to parse the
cleaned span, returning the parsed object on success and the raw message on
a parse error (the inner `except`); with no match, return the raw message. -/
def processContent (content : List Char) : DraftResult :=
  match findCommitSpan content with
  | none => DraftResult.text content
  | some span =>
    match spanParse span with
    | some j => DraftResult.commit j
    | none => DraftResult.text content

/-! ### The Grok upstream environment and `grok_ai.py` functions -/

/-- The outcome of the one `requests.post` call a function makes: either
the call raised (connection error, timeout), or it returned a status code
and a raw body. -/
inductive UpstreamOutcome where
  | netError : UpstreamOutcome
  | resp : Nat → List Char → UpstreamOutcome

/-- The process environment of `grok_ai.py`: the `GROK_API_KEY` variable
and the outcome of the upstream call the function under study makes. -/
structure GrokEnv where
  key : Option String
  outcome : UpstreamOutcome

/-- `response.raise_for_status()` raises exactly for 4xx and 5xx codes. -/
def raisesForStatus (code : Nat) : Bool := 400 ≤ code && code < 600

/-- `response.json()["choices"][0]["message"]["content"]`: `none` models
any of the raised exceptions (malformed body, missing key, empty list,
non-string content) that the surrounding `except` catches. -/
def envelopeContent (body : List Char) : Option (List Char) :=
  match jsonParse body with
  | none => none
  | some j =>
    match jGet j "choices" with
    | some (Json.arr (c0 :: _)) =>
      match jGet c0 "message" with
      | some m =>
        match jGet m "content" with
        | some (Json.str s) => some s.data
        | _ => none
      | none => none
    | _ => none

/-- The degraded classification `route_user_intent` falls back to. -/
def fallbackIntent : Json :=
  Json.obj [("intent", Json.str "general_query"), ("entities", Json.obj [])]

/-- `route_user_intent` of `grok_ai.py` (lines 222–318).  The prompt built
from `text` only influences the upstream model, whose reply is the
environment's `outcome`; the function returns `json.loads` of the reply's
content verbatim, and any failure along the way degrades to
`fallbackIntent`. -/
def route_user_intent (env : GrokEnv) (_text : String) : Json :=
  if !(pyTruthyStr env.key) then fallbackIntent
  else
    match env.outcome with
    | UpstreamOutcome.netError => fallbackIntent
    | UpstreamOutcome.resp code body =>
      if raisesForStatus code then fallbackIntent
      else
        match envelopeContent body with
        | none => fallbackIntent
        | some content =>
          match jsonParse content with
          | some v => v
          | none => fallbackIntent

def keyMissingMsg : List Char := "❌ Groq API Key is missing.".data

def grokApologyMsg : List Char :=
  "⚠️ I'm having trouble connecting to the AI right now. Please try again later.".data

/-- `draft_email_interactive` of `grok_ai.py` (lines 84–156).  The
conversation history, user name and recipients shape only the prompt; the
assistant's reply is the environment's `outcome`.  The commit-extraction
stage is `processContent`; the outer `except` returns the static apology. -/
def draft_email_interactive (env : GrokEnv) (_conversation_history : List (String × String))
    (_user_name _recipients : String) : DraftResult :=
  if !(pyTruthyStr env.key) then DraftResult.text keyMissingMsg
  else
    match env.outcome with
    | UpstreamOutcome.netError => DraftResult.text grokApologyMsg
    | UpstreamOutcome.resp code body =>
      if raisesForStatus code then DraftResult.text grokApologyMsg
      else
        match envelopeContent body with
        | none => DraftResult.text grokApologyMsg
        | some content => processContent content

/-- The static bundle returned when the API key is missing. -/
def briefingNoKey (user_name : String) : Json :=
  Json.obj [("greeting", Json.str ("☀️ Good Morning, " ++ user_name ++ "!")),
            ("quote_explanation", Json.str "Have a great day!"),
            ("detailed_history", Json.str "No historical fact found for today."),
            ("detailed_weather", Json.str "Weather data is currently unavailable.")]

/-- The static bundle returned when the upstream call or parse fails. -/
def briefingOnError (user_name : String) : Json :=
  Json.obj [("greeting", Json.str ("☀️ Good Morning, " ++ user_name ++ "!")),
            ("quote_explanation", Json.str "Could not generate explanation."),
            ("detailed_history", Json.str "Could not generate historical fact."),
            ("detailed_weather", Json.str "Could not generate weather forecast.")]

/-- `generate_full_daily_briefing` of `grok_ai.py` (lines 160–218).  The
festival, quote, author, events and weather data shape only the prompt
(each history event is a dict read with `.get("text", "")`, never raising);
the function returns `json.loads` of the reply's content verbatim, a static
bundle on missing key, and the other static bundle on any failure. -/
def generate_full_daily_briefing (env : GrokEnv) (user_name : String)
    (_festival_name _quote _author : String)
    (_history_events : List (List (String × Json))) (_weather_data : Json) : Json :=
  if !(pyTruthyStr env.key) then briefingNoKey user_name
  else
    match env.outcome with
    | UpstreamOutcome.netError => briefingOnError user_name
    | UpstreamOutcome.resp code body =>
      if raisesForStatus code then briefingOnError user_name
      else
        match envelopeContent body with
        | none => briefingOnError user_name
        | some content =>
          match jsonParse content with
          | some v => v
          | none => briefingOnError user_name

/-! ### The train-status fallback engine (`train_tracking.py`) -/

/-- The outcome of the one `requests.get` call to the RapidAPI endpoint. -/
inductive LiveOutcome where
  | netError : LiveOutcome
  | resp : Nat → List Char → LiveOutcome

/-- The process environment of `train_tracking.py`: the `RAPIDAPI_KEY`
variable, the live call's outcome, the two `strftime` date strings, and the
numbers drawn by `random.randint` / `random.choice` in the simulation
layer (arbitrary naturals, reduced below into the documented ranges). -/
structure TrainEnv where
  rapidApiKey : Option String
  live : LiveOutcome
  todayStr : String
  tomorrowStr : String
  randCoach : Nat
  randBerth : Nat
  randDelay : Nat

/-- Which of the three layers produced the result (observability
annotation of the code path taken; the Python dict itself carries only
`success` and `data`). -/
inductive Layer where
  | shortcut : Layer
  | live : Layer
  | simulated : Layer
deriving DecidableEq

/-- The return value of `get_pnr_status`: the Python dict's `success` flag
and `data` record, plus two model-level observations of the code path —
which layer returned, and whether `requests.get` was executed. -/
structure PnrResult where
  success : Bool
  data : List (String × Json)
  layer : Layer
  networkCalled : Bool

def DEMO_PNR : String := "8204567890"

/-- `clean_pnr = str(pnr).replace(" ", "").strip()`. -/
def cleanPnr (pnr : String) : String :=
  String.mk (pyStripChars (removeAll [' '] pnr.data))

/-- The fixed record of Layer 1 (demo mode); `doj` is tomorrow's date. -/
def demoData (env : TrainEnv) (clean : String) : List (String × Json) :=
  [("train_name", Json.str "12951 - Rajdhani Express"),
   ("pnr", Json.str clean),
   ("doj", Json.str env.tomorrowStr),
   ("booking_status", Json.str "CNF"),
   ("current_status", Json.str "CNF"),
   ("coach", Json.str "A4"),
   ("berth", Json.str "21"),
   ("delay_minutes", Json.num 15 0),
   ("current_location", Json.str "Crossing Vadodara Jn"),
   ("destination", Json.str "New Delhi")]

/-- The record of Layer 3 (simulation): `random.randint(1, 5)` for the
coach, `random.randint(1, 72)` for the berth, `random.choice([0, 5, 10,
25])` for the delay. -/
def simData (env : TrainEnv) (clean : String) : List (String × Json) :=
  [("train_name", Json.str "Superfast Express (Simulation)"),
   ("pnr", Json.str clean),
   ("doj", Json.str env.todayStr),
   ("booking_status", Json.str "CNF"),
   ("current_status", Json.str "CNF"),
   ("coach", Json.str ("B" ++ toString (1 + env.randCoach % 5))),
   ("berth", Json.str (toString (1 + env.randBerth % 72))),
   ("delay_minutes", Json.num (([0, 5, 10, 25].getD (env.randDelay % 4) 0 : Nat) : Int) 0),
   ("current_location", Json.str "On Time"),
   ("destination", Json.str "End Station")]

/-- The record of Layer 2 (live API), mapping the provider's fields with
`info.get(..., default)`; `d` is `int(info.get("delay", 0))`. -/
def liveData (ifields : List (String × Json)) (clean : String) (d : Int) :
    List (String × Json) :=
  [("train_name", pyGet ifields "trainName" (Json.str "Unknown Train")),
   ("pnr", Json.str clean),
   ("doj", pyGet ifields "doj" (Json.str "N/A")),
   ("booking_status", pyGet ifields "bookingStatus" (Json.str "CNF")),
   ("current_status", pyGet ifields "currentStatus" (Json.str "CNF")),
   ("coach", pyGet ifields "coach" (Json.str "N/A")),
   ("berth", pyGet ifields "berthNumber" (Json.str "N/A")),
   ("delay_minutes", Json.num d 0),
   ("current_location", pyGet ifields "currentStation" (Json.str "En Route")),
   ("destination", pyGet ifields "destinationName" (Json.str "Destination"))]

def simResult (env : TrainEnv) (clean : String) (net : Bool) : PnrResult :=
  { success := true, data := simData env clean, layer := Layer.simulated, networkCalled := net }

def demoResult (env : TrainEnv) (clean : String) : PnrResult :=
  { success := true, data := demoData env clean, layer := Layer.shortcut, networkCalled := false }

/-- Lines 57–77 of `train_tracking.py`, on a successfully parsed response
body `j`.  `data.get("status") is True or data.get("data")` guards the
mapping; `info = data.get("data", {})`; a non-dict body or `info`, or a
`delay` value `int()` rejects, raises inside the `try` and falls through to
the simulation layer. -/
def liveBodyResult (env : TrainEnv) (clean : String) (j : Json) : PnrResult :=
  match j with
  | Json.obj fields =>
    if (match lookupLast fields "status" with
        | some (Json.bool true) => true
        | _ => false)
       || pyTruthyJson (pyGet fields "data" Json.null) then
      match pyGet fields "data" (Json.obj []) with
      | Json.obj ifields =>
        match pyInt (pyGet ifields "delay" (Json.num 0 0)) with
        | some d =>
          { success := true, data := liveData ifields clean d,
            layer := Layer.live, networkCalled := true }
        | none => simResult env clean true
      | _ => simResult env clean true
    else simResult env clean true
  | _ => simResult env clean true

/-- Layer 2: the `try` block around the live call.  A raised request, a
non-200 status (no exception — the `if` just does not return), or an
unparseable body all end in the simulation layer; the network was called in
every case. -/
def liveResult (env : TrainEnv) (clean : String) : PnrResult :=
  match env.live with
  | LiveOutcome.netError => simResult env clean true
  | LiveOutcome.resp code body =>
    if code == 200 then
      match jsonParse body with
      | none => simResult env clean true
      | some j => liveBodyResult env clean j
    else simResult env clean true

/-- `get_pnr_status` of `train_tracking.py` (lines 17–99): the 3-layer
fallback. -/
def get_pnr_status (env : TrainEnv) (pnr : String) : PnrResult :=
  if cleanPnr pnr == DEMO_PNR then demoResult env (cleanPnr pnr)
  else if pyTruthyStr env.rapidApiKey then liveResult env (cleanPnr pnr)
  else simResult env (cleanPnr pnr) false

def pnrFailMsg : String :=
  "❌ Could not fetch PNR status. Please check the number or try again later."

/-- Python `str(v)` for the scalar values the UI string interpolates;
container rendering is a placeholder (no theorem depends on it). -/
def jsonDisp : Json → String
  | Json.str s => s
  | Json.num m _ => toString m
  | Json.bool b => if b then "True" else "False"
  | Json.null => "None"
  | Json.arr _ => "[...]"
  | Json.obj _ => "\x7b...\x7d"

/-- `info['delay_minutes'] > 0` for the values `get_pnr_status` stores
there (always an int in the code; other kinds would raise in Python and
are mapped to `false` here — no produced record contains them). -/
def pyGtZero : Json → Bool
  | Json.num m _ => decide (0 < m)
  | Json.bool b => b
  | _ => false

/-- `format_train_response` of `train_tracking.py` (lines 101–122).
Member access `info[...]` is modelled by `jGetD` (every record
`get_pnr_status` produces has all ten keys, see the C9 theorem). -/
def format_train_response (r : PnrResult) : String :=
  if r.success == false then pnrFailMsg
  else
    let delayV := jGetD r.data "delay_minutes"
    let delayMsg :=
      if pyGtZero delayV then "⚠️ Delayed by " ++ jsonDisp delayV ++ " mins"
      else "✅ Running On Time"
    "🚆 *Train Journey Detected*\n🚂 *" ++ jsonDisp (jGetD r.data "train_name") ++
    "*\n🎫 PNR: *" ++ jsonDisp (jGetD r.data "pnr") ++
    "*\n\n✅ Status: *" ++ jsonDisp (jGetD r.data "current_status") ++
    "* (Coach " ++ jsonDisp (jGetD r.data "coach") ++
    ", Seat " ++ jsonDisp (jGetD r.data "berth") ++
    ")\n📍 Location: " ++ jsonDisp (jGetD r.data "current_location") ++
    "\n🕒 Status: " ++ delayMsg ++
    "\n\n🔔 *Smart Alert:* I've enabled background tracking for this trip. I'll wake you up 30 mins before arrival!"

/-! ### Named constants and predicates used by the claim theorems -/

/-- The ten keys of the internal record shape, in the order all three
layers produce them. -/
def pnrKeys : List String :=
  ["train_name", "pnr", "doj", "booking_status", "current_status",
   "coach", "berth", "delay_minutes", "current_location", "destination"]

/-- The live-layer record when the provider omits every optional field:
each value is the documented default of the corresponding `info.get`. -/
def liveDefaultData (clean : String) : List (String × Json) :=
  [("train_name", Json.str "Unknown Train"),
   ("pnr", Json.str clean),
   ("doj", Json.str "N/A"),
   ("booking_status", Json.str "CNF"),
   ("current_status", Json.str "CNF"),
   ("coach", Json.str "N/A"),
   ("berth", Json.str "N/A"),
   ("delay_minutes", Json.num 0 0),
   ("current_location", Json.str "En Route"),
   ("destination", Json.str "Destination")]

/-- The conditions under which a classification or generation call cannot
succeed: missing/empty key, a raised upstream call, a 4xx/5xx status, or a
body that fails to parse as JSON (the envelope, or the content inside it). -/
def upstreamFails (env : GrokEnv) : Prop :=
  pyTruthyStr env.key = false ∨
  env.outcome = UpstreamOutcome.netError ∨
  (∃ code body, env.outcome = UpstreamOutcome.resp code body ∧
    (raisesForStatus code = true ∨ envelopeContent body = none ∨
     (∃ content, envelopeContent body = some content ∧ jsonParse content = none)))

/-- Markdown code-fence wrapping of a message, as in the C5 claim. -/
def fenceWrap (l : List Char) : List Char := "```json\n".data ++ l ++ "\n```".data

/-- A complete well-formed commit object (the smallest structured object
whose discriminator field equals SEND_EMAIL). -/
def commitObjLit : List Char := "\x7b\"action\": \"SEND_EMAIL\"\x7d".data

/-- `commitObjLit` without its opening brace. -/
def commitTailLit : List Char := "\"action\": \"SEND_EMAIL\"\x7d".data

/-- C3 counterexample message: more than one candidate structured object,
the second being the smallest well-formed one carrying the discriminator. -/
def contentC3 : List Char :=
  "Draft ready. \x7b\"a\": 1\x7d \x7b\"action\": \"SEND_EMAIL\", \"x\": 2\x7d".data

/-- The smallest well-formed discriminator object inside `contentC3`. -/
def smallestC3 : List Char := "\x7b\"action\": \"SEND_EMAIL\", \"x\": 2\x7d".data

/-- C4 witness content: the discriminator pattern is present but the text
is not valid JSON. -/
def contentC4 : List Char := "\x7b\"action\": \"SEND_EMAIL\" broken\x7d".data

/-- C4 witness: an upstream envelope whose content is `contentC4`. -/
def bodyC4 : List Char :=
  "\x7b\"choices\": [\x7b\"message\": \x7b\"content\": \"\x7b\\\"action\\\": \\\"SEND_EMAIL\\\" broken\x7d\"\x7d\x7d]\x7d".data

def envC4 : GrokEnv := { key := some "k", outcome := UpstreamOutcome.resp 200 bodyC4 }

/-- C7 counterexample: a successful upstream response whose
`detailed_history` field is model-generated, not a static fallback. -/
def bodyC7 : List Char :=
  "\x7b\"choices\": [\x7b\"message\": \x7b\"content\": \"\x7b\\\"greeting\\\": \\\"g\\\", \\\"quote_explanation\\\": \\\"q\\\", \\\"detailed_history\\\": \\\"Rome fell.\\\", \\\"detailed_weather\\\": \\\"w\\\"\x7d\"\x7d\x7d]\x7d".data

def envC7 : GrokEnv := { key := some "k", outcome := UpstreamOutcome.resp 200 bodyC7 }

/-- C8 counterexample: a well-formed upstream classification whose
`set_reminder` entity carries a null timestamp. -/
def bodyC8 : List Char :=
  "\x7b\"choices\": [\x7b\"message\": \x7b\"content\": \"\x7b\\\"intent\\\": \\\"set_reminder\\\", \\\"entities\\\": [\x7b\\\"task\\\": \\\"call mom\\\", \\\"timestamp\\\": null, \\\"recurrence\\\": \\\"daily\\\"\x7d]\x7d\"\x7d\x7d]\x7d".data

def envC8 : GrokEnv := { key := some "k", outcome := UpstreamOutcome.resp 200 bodyC8 }

/-- The content string carried inside `bodyC8`. -/
def contentC8 : List Char :=
  "\x7b\"intent\": \"set_reminder\", \"entities\": [\x7b\"task\": \"call mom\", \"timestamp\": null, \"recurrence\": \"daily\"\x7d]\x7d".data

/-- The entity list `route_user_intent` returns on `bodyC8`. -/
def entC8 : List (String × Json) :=
  [("task", Json.str "call mom"), ("timestamp", Json.null), ("recurrence", Json.str "daily")]

/-- The classification result `route_user_intent` returns on `bodyC8`. -/
def expectedC8 : Json :=
  Json.obj [("intent", Json.str "set_reminder"), ("entities", Json.arr [Json.obj entC8])]

/-- An environment with no credentials and a failing live call (used by
witnesses). -/
def envTrainNoKey : TrainEnv :=
  { rapidApiKey := none, live := LiveOutcome.netError, todayStr := "01-01-2026",
    tomorrowStr := "02-01-2026", randCoach := 0, randBerth := 0, randDelay := 0 }

/-- A provider body whose `status` is `true` and whose `data` is absent, so
every mapped field takes its documented default. -/
def statusTrueBody : List Char := "\x7b\"status\": true\x7d".data

/-- An environment whose live call succeeds with `statusTrueBody`. -/
def envTrainLive : TrainEnv :=
  { rapidApiKey := some "k", live := LiveOutcome.resp 200 statusTrueBody,
    todayStr := "01-01-2026", tomorrowStr := "02-01-2026",
    randCoach := 1, randBerth := 2, randDelay := 3 }

/-! ### Scanning lemmas for the extractor -/

theorem hasChar_append (c : Char) (a b : List Char) :
    hasChar c (a ++ b) = (hasChar c a || hasChar c b) := by
  induction a with
  | nil => simp [hasChar]
  | cons x t ih => simp [hasChar, ih, Bool.or_assoc]

theorem pfx_append_right (p : List Char) : ∀ a b : List Char,
    pfx p a = true → pfx p (a ++ b) = true := by
  induction p with
  | nil => intro a b _; rfl
  | cons x q ih =>
    intro a b h
    cases a with
    | nil => exact absurd h (by simp [pfx])
    | cons y t =>
      simp only [pfx, Bool.and_eq_true] at h
      simp only [List.cons_append, pfx, Bool.and_eq_true]
      exact ⟨h.1, ih t b h.2⟩

theorem pfx_length_le (p : List Char) : ∀ l : List Char,
    pfx p l = true → p.length ≤ l.length := by
  induction p with
  | nil => intro l _; simp
  | cons x q ih =>
    intro l h
    cases l with
    | nil => exact absurd h (by simp [pfx])
    | cons y t =>
      simp only [pfx, Bool.and_eq_true] at h
      simpa using Nat.succ_le_succ (ih t h.2)

theorem pfx_ne_nil (x : Char) (q l : List Char) (h : pfx (x :: q) l = true) : l ≠ [] := by
  cases l with
  | nil => exact absurd h (by simp [pfx])
  | cons y t => simp

theorem pfx_hasChar (p : List Char) (c : Char) : ∀ l : List Char,
    pfx p l = true → hasChar c p = true → hasChar c l = true := by
  induction p with
  | nil => intro l _ hc; simp [hasChar] at hc
  | cons x q ih =>
    intro l hp hc
    cases l with
    | nil => exact absurd hp (by simp [pfx])
    | cons y t =>
      simp only [pfx, Bool.and_eq_true, beq_iff_eq] at hp
      simp only [hasChar, Bool.or_eq_true, beq_iff_eq] at hc ⊢
      rcases hc with hc | hc
      · exact Or.inl (by rw [← hp.1, hc])
      · exact Or.inr (ih t hp.2 hc)

theorem pfx_snoc_append (c : Char) (q : List Char) : ∀ a b : List Char,
    hasChar c b = false → pfx (q ++ [c]) (a ++ b) = pfx (q ++ [c]) a := by
  induction q with
  | nil =>
    intro a b hb
    cases a with
    | nil =>
      cases b with
      | nil => rfl
      | cons y t =>
        simp only [hasChar, Bool.or_eq_false_iff] at hb
        simp only [List.nil_append, pfx, Bool.and_true, pfx.eq_1]
        have : (c == y) = false := by
          rcases Bool.eq_false_iff.mp hb.1 with h
          exact beq_eq_false_iff_ne.mpr (fun hcy => h (beq_iff_eq.mpr hcy.symm))
        simp [this]
    | cons y t =>
      simp [pfx]
  | cons d q' ih =>
    intro a b hb
    cases a with
    | nil =>
      simp only [List.nil_append]
      have h2 : pfx (d :: q' ++ [c]) b = false := by
        cases htest : pfx (d :: q' ++ [c]) b with
        | false => rfl
        | true =>
          have hcmem : hasChar c (d :: q' ++ [c]) = true := by
            rw [show (d :: q' ++ [c] : List Char) = (d :: q') ++ [c] from rfl,
              hasChar_append]
            simp [hasChar]
          have := pfx_hasChar _ c b htest hcmem
          rw [this] at hb
          exact absurd hb (by simp)
      rw [h2]
      cases hres : pfx (d :: q' ++ [c]) [] with
      | false => rfl
      | true => exact absurd hres (by simp [pfx])
    | cons y t =>
      simp only [List.cons_append, pfx, List.append_eq]
      rw [ih t b hb]

theorem dropWhile_append_ne (p : Char → Bool) : ∀ a b : List Char,
    a.dropWhile p ≠ [] → (a ++ b).dropWhile p = a.dropWhile p ++ b := by
  intro a
  induction a with
  | nil => intro b h; simp [List.dropWhile] at h
  | cons x t ih =>
    intro b h
    by_cases hx : p x = true
    · simp only [List.dropWhile_cons, hx, if_true] at h
      simp only [List.cons_append, List.dropWhile_cons, hx, if_true]
      exact ih b h
    · simp only [List.dropWhile_cons, hx]
      simp [hx]

theorem takeWhile_append_ne (p : Char → Bool) : ∀ a b : List Char,
    a.dropWhile p ≠ [] → (a ++ b).takeWhile p = a.takeWhile p := by
  intro a
  induction a with
  | nil => intro b h; simp [List.dropWhile] at h
  | cons x t ih =>
    intro b h
    by_cases hx : p x = true
    · simp only [List.dropWhile_cons, hx, if_true] at h
      simp only [List.cons_append, List.takeWhile_cons, hx, if_true]
      rw [ih b h]
    · simp only [List.cons_append, List.takeWhile_cons, hx]
      simp [hx]

theorem dropWhile_append_all (p : Char → Bool) : ∀ a b : List Char,
    a.dropWhile p = [] → (a ++ b).dropWhile p = b.dropWhile p := by
  intro a
  induction a with
  | nil => intro b _; rfl
  | cons x t ih =>
    intro b h
    by_cases hx : p x = true
    · simp only [List.dropWhile_cons, hx, if_true] at h
      simp only [List.cons_append, List.dropWhile_cons, hx, if_true]
      exact ih b h
    · simp [List.dropWhile_cons, hx] at h

theorem takeWhile_append_all (p : Char → Bool) : ∀ a b : List Char,
    a.dropWhile p = [] → (a ++ b).takeWhile p = a ++ b.takeWhile p := by
  intro a
  induction a with
  | nil => intro b _; rfl
  | cons x t ih =>
    intro b h
    by_cases hx : p x = true
    · simp only [List.dropWhile_cons, hx, if_true] at h
      simp only [List.cons_append, List.takeWhile_cons, hx, if_true]
      rw [ih b h]
    · simp [List.dropWhile_cons, hx] at h

theorem dropWhile_eq_drop_len (p : Char → Bool) (l : List Char) :
    l.dropWhile p = l.drop (l.takeWhile p).length := by
  induction l with
  | nil => rfl
  | cons x t ih =>
    by_cases hx : p x = true
    · simp [List.dropWhile_cons, List.takeWhile_cons, hx, ih]
    · simp [List.dropWhile_cons, List.takeWhile_cons, hx]

theorem takeWhile_len_le (p : Char → Bool) (l : List Char) :
    (l.takeWhile p).length ≤ l.length := by
  induction l with
  | nil => simp
  | cons x t ih =>
    by_cases hx : p x = true
    · simpa [List.takeWhile_cons, hx] using Nat.succ_le_succ ih
    · simp [List.takeWhile_cons, hx]

theorem takeWhile_eq_self_of_drop_nil (p : Char → Bool) (l : List Char)
    (h : l.dropWhile p = []) : l.takeWhile p = l := by
  have := List.takeWhile_append_dropWhile (p := p) (l := l)
  rw [h, List.append_nil] at this
  exact this

theorem drop_append_le (b : List Char) : ∀ (a : List Char) (n : Nat), n ≤ a.length →
    (a ++ b).drop n = a.drop n ++ b := by
  intro a
  induction a with
  | nil =>
    intro n h
    simp at h
    simp [h]
  | cons x t ih =>
    intro n h
    cases n with
    | zero => simp
    | succ m =>
      simp only [List.cons_append, List.drop_succ_cons]
      exact ih m (Nat.le_of_succ_le_succ h)

theorem drop_append_full (a b : List Char) (n : Nat) :
    (a ++ b).drop (a.length + n) = b.drop n := by
  induction a with
  | nil => simp
  | cons x t ih => simp [List.drop_succ_cons, Nat.succ_add, ih]

theorem hasChar_dropWhile (c : Char) (p : Char → Bool) (l : List Char)
    (h : hasChar c (l.dropWhile p) = true) : hasChar c l = true := by
  induction l with
  | nil => simpa [List.dropWhile] using h
  | cons x t ih =>
    by_cases hx : p x = true
    · simp only [List.dropWhile_cons, hx, if_true] at h
      simp [hasChar, ih h]
    · simpa [List.dropWhile_cons, hx] using h

theorem occLen_le (l : List Char) (n : Nat) (h : occLen l = some n) : n ≤ l.length := by
  unfold occLen at h
  by_cases h1 : pfx discrimHead l = true
  · rw [if_pos h1] at h
    by_cases h2 : pfx discrimTail
        ((l.drop discrimHead.length).drop
          (((l.drop discrimHead.length).takeWhile isWsPy).length)) = true
    · rw [if_pos h2] at h
      have hn := (Option.some.inj h).symm
      have hd : discrimHead.length ≤ l.length := pfx_length_le _ _ h1
      have hw2 : ((l.drop discrimHead.length).takeWhile isWsPy).length
          ≤ (l.drop discrimHead.length).length := takeWhile_len_le _ _
      have ht := pfx_length_le _ _ h2
      simp only [List.length_drop] at hw2 ht
      omega
    · rw [if_neg h2] at h
      exact absurd h (by simp)
  · rw [if_neg h1] at h
    exact absurd h (by simp)

theorem occLen_append_some (a t : List Char) (n : Nat) (h : occLen a = some n) :
    occLen (a ++ t) = some n := by
  unfold occLen at h ⊢
  by_cases h1 : pfx discrimHead a = true
  · rw [if_pos h1] at h
    by_cases h2 : pfx discrimTail
        ((a.drop discrimHead.length).drop
          (((a.drop discrimHead.length).takeWhile isWsPy).length)) = true
    · rw [if_pos h2] at h
      have hd : discrimHead.length ≤ a.length := pfx_length_le _ _ h1
      have hdrop : (a ++ t).drop discrimHead.length = a.drop discrimHead.length ++ t :=
        drop_append_le t a discrimHead.length hd
      have hne : (a.drop discrimHead.length).dropWhile isWsPy ≠ [] := by
        rw [dropWhile_eq_drop_len]
        have : discrimTail = '"' :: discrimTail.tail := rfl
        rw [this] at h2
        exact pfx_ne_nil _ _ _ h2
      have htw : ((a.drop discrimHead.length ++ t).takeWhile isWsPy)
          = (a.drop discrimHead.length).takeWhile isWsPy :=
        takeWhile_append_ne isWsPy (a.drop discrimHead.length) t hne
      have hwle : (((a.drop discrimHead.length).takeWhile isWsPy).length)
          ≤ (a.drop discrimHead.length).length := takeWhile_len_le _ _
      have hdrop2 : (a.drop discrimHead.length ++ t).drop
            (((a.drop discrimHead.length).takeWhile isWsPy).length)
          = (a.drop discrimHead.length).drop
              (((a.drop discrimHead.length).takeWhile isWsPy).length) ++ t :=
        drop_append_le t (a.drop discrimHead.length) _ hwle
      rw [if_pos (pfx_append_right _ _ _ h1), hdrop, htw, hdrop2,
        if_pos (pfx_append_right _ _ _ h2)]
      exact h
    · rw [if_neg h2] at h
      exact absurd h (by simp)
  · rw [if_neg h1] at h
    exact absurd h (by simp)

theorem discrimHead_split : discrimHead = "\"action\"".data ++ [':'] := rfl

theorem discrimTail_split : discrimTail = "\"SEND_EMAIL".data ++ ['"'] := rfl

theorem occLen_append_eq (a b : List Char) (hq : hasChar '"' b = false)
    (hc : hasChar ':' b = false) : occLen (a ++ b) = occLen a := by
  unfold occLen
  have hh : pfx discrimHead (a ++ b) = pfx discrimHead a := by
    rw [discrimHead_split]
    exact pfx_snoc_append ':' ("\"action\"".data) a b hc
  rw [hh]
  by_cases h1 : pfx discrimHead a = true
  · rw [if_pos h1, if_pos h1]
    have hd : discrimHead.length ≤ a.length := pfx_length_le _ _ h1
    have hdrop : (a ++ b).drop discrimHead.length = a.drop discrimHead.length ++ b :=
      drop_append_le b a discrimHead.length hd
    rw [hdrop]
    by_cases hall : (a.drop discrimHead.length).dropWhile isWsPy = []
    · -- the rest of `a` is all whitespace: both sides fail the tail test
      have htw : (a.drop discrimHead.length ++ b).takeWhile isWsPy
          = a.drop discrimHead.length ++ b.takeWhile isWsPy :=
        takeWhile_append_all isWsPy (a.drop discrimHead.length) b hall
      have hself : (a.drop discrimHead.length).takeWhile isWsPy = a.drop discrimHead.length :=
        takeWhile_eq_self_of_drop_nil _ _ hall
      have hdrop2 : (a.drop discrimHead.length ++ b).drop
            ((a.drop discrimHead.length ++ b.takeWhile isWsPy).length)
          = b.drop ((b.takeWhile isWsPy).length) := by
        rw [List.length_append]
        exact drop_append_full _ _ _
      have hright : pfx discrimTail
          ((a.drop discrimHead.length).drop
            (((a.drop discrimHead.length).takeWhile isWsPy).length)) = false := by
        rw [hself, List.drop_length]
        cases htest : pfx discrimTail [] with
        | false => rfl
        | true => exact absurd htest (by simp [discrimTail, pfx])
      have hleft : pfx discrimTail (b.drop ((b.takeWhile isWsPy).length)) = false := by
        rw [← dropWhile_eq_drop_len]
        cases htest : pfx discrimTail (b.dropWhile isWsPy) with
        | false => rfl
        | true =>
          have hqmem : hasChar '"' discrimTail = true := by decide
          have := pfx_hasChar _ '"' _ htest hqmem
          have := hasChar_dropWhile '"' isWsPy b this
          rw [this] at hq
          exact absurd hq (by simp)
      rw [htw, hdrop2, hleft, hright]
      simp
    · have htw : (a.drop discrimHead.length ++ b).takeWhile isWsPy
          = (a.drop discrimHead.length).takeWhile isWsPy :=
        takeWhile_append_ne isWsPy (a.drop discrimHead.length) b hall
      have hwle : (((a.drop discrimHead.length).takeWhile isWsPy).length)
          ≤ (a.drop discrimHead.length).length := takeWhile_len_le _ _
      have hdrop2 : (a.drop discrimHead.length ++ b).drop
            (((a.drop discrimHead.length).takeWhile isWsPy).length)
          = (a.drop discrimHead.length).drop
              (((a.drop discrimHead.length).takeWhile isWsPy).length) ++ b :=
        drop_append_le b (a.drop discrimHead.length) _ hwle
      have htail : pfx discrimTail
            ((a.drop discrimHead.length).drop
              (((a.drop discrimHead.length).takeWhile isWsPy).length) ++ b)
          = pfx discrimTail
            ((a.drop discrimHead.length).drop
              (((a.drop discrimHead.length).takeWhile isWsPy).length)) := by
        rw [discrimTail_split]
        exact pfx_snoc_append '"' ("\"SEND_EMAIL".data) _ b hq
      rw [htw, hdrop2, htail]
  · rw [if_neg h1, if_neg h1]

theorem hasOccBrace_cons (x : Char) (t : List Char) :
    hasOccBrace (x :: t) = ((match occLen (x :: t) with
      | some n => hasChar '}' (List.drop n (x :: t))
      | none => false) || hasOccBrace t) := rfl

theorem hasOccBrace_append_eq (a b : List Char) (hq : hasChar '"' b = false)
    (hc : hasChar ':' b = false) (hbr0 : hasChar '}' b = false) :
    hasOccBrace (a ++ b) = (hasOccBrace a || hasOccBrace b) := by
  induction a with
  | nil => simp [hasOccBrace]
  | cons x t ih =>
    have hlocal : occLen ((x :: t) ++ b) = occLen (x :: t) := occLen_append_eq (x :: t) b hq hc
    rw [show ((x :: t) ++ b : List Char) = x :: (t ++ b) from rfl, hasOccBrace_cons x (t ++ b),
      show (x :: (t ++ b) : List Char) = (x :: t) ++ b from rfl, hlocal, ih,
      hasOccBrace_cons x t]
    cases hocc : occLen (x :: t) with
    | none => simp [Bool.or_assoc]
    | some n =>
      have hle : n ≤ (x :: t).length := occLen_le _ _ hocc
      dsimp only
      rw [drop_append_le b (x :: t) n hle, hasChar_append, hbr0]
      simp [Bool.or_assoc]

theorem hasOccBrace_false_of_no_quote (l : List Char) (h : hasChar '"' l = false) :
    hasOccBrace l = false := by
  induction l with
  | nil => rfl
  | cons x t ih =>
    have hx : (x == '"') = false ∧ hasChar '"' t = false := by
      have := h
      simp only [hasChar, Bool.or_eq_false_iff] at this
      exact this
    have hp : pfx discrimHead (x :: t) = false := by
      cases htest : pfx discrimHead (x :: t) with
      | false => rfl
      | true =>
        have := pfx_hasChar discrimHead '"' (x :: t) htest (by decide)
        rw [this] at h
        exact absurd h (by simp)
    unfold hasOccBrace occLen
    rw [hp]
    simp [ih hx.2]

theorem hasOccBrace_append_true (a t : List Char) (h : hasOccBrace a = true) :
    hasOccBrace (a ++ t) = true := by
  induction a with
  | nil => simp [hasOccBrace] at h
  | cons x s ih =>
    rw [hasOccBrace_cons] at h
    rw [show ((x :: s) ++ t : List Char) = x :: (s ++ t) from rfl, hasOccBrace_cons]
    cases hright : hasOccBrace s with
    | true =>
      rw [ih hright]
      simp
    | false =>
      rw [hright, Bool.or_false] at h
      cases hocc : occLen (x :: s) with
      | none => rw [hocc] at h; exact absurd h (by simp)
      | some n =>
        rw [hocc] at h
        have hle : n ≤ (x :: s).length := occLen_le _ _ hocc
        rw [show (x :: (s ++ t) : List Char) = (x :: s) ++ t from rfl,
          occLen_append_some _ t n hocc]
        dsimp only at h ⊢
        rw [drop_append_le t (x :: s) n hle, hasChar_append, h]
        simp

theorem findStart_none_of_no_lbrace (l : List Char) (h : hasChar '{' l = false) :
    findStart l = none := by
  induction l with
  | nil => rfl
  | cons x t ih =>
    have hx : (x == '{') = false ∧ hasChar '{' t = false := by
      simp only [hasChar, Bool.or_eq_false_iff] at h
      exact h
    unfold findStart
    simp [hx.1, ih hx.2]

theorem findStart_prepend (P l : List Char) (h : hasChar '{' P = false) :
    findStart (P ++ l) = findStart l := by
  induction P with
  | nil => rfl
  | cons x t ih =>
    have hx : (x == '{') = false ∧ hasChar '{' t = false := by
      simp only [hasChar, Bool.or_eq_false_iff] at h
      exact h
    show findStart (x :: (t ++ l)) = _
    rw [show findStart (x :: (t ++ l))
        = (if x == '{' && hasOccBrace (t ++ l) then some (x :: (t ++ l))
           else findStart (t ++ l)) from rfl]
    simp [hx.1, ih hx.2]

theorem findStart_append_eq (a S : List Char) (hq : hasChar '"' S = false)
    (hc : hasChar ':' S = false) (hbr : hasChar '}' S = false)
    (hlb : hasChar '{' S = false) :
    findStart (a ++ S) = (findStart a).map (fun r => r ++ S) := by
  induction a with
  | nil =>
    simp [findStart_none_of_no_lbrace S hlb, findStart]
  | cons x t ih =>
    show findStart (x :: (t ++ S)) = _
    rw [show findStart (x :: (t ++ S))
        = (if x == '{' && hasOccBrace (t ++ S) then some (x :: (t ++ S))
           else findStart (t ++ S)) from rfl]
    have hob : hasOccBrace (t ++ S) = hasOccBrace t := by
      rw [hasOccBrace_append_eq t S hq hc hbr, hasOccBrace_false_of_no_quote S hq, Bool.or_false]
    rw [hob]
    rw [show findStart (x :: t)
        = (if x == '{' && hasOccBrace t then some (x :: t) else findStart t) from rfl]
    cases hcond : (x == '{' && hasOccBrace t) with
    | true => simp
    | false => simp [ih]

theorem dropWhile_ne_nil_of_hasChar (c : Char) (l : List Char) (h : hasChar c l = true) :
    l.dropWhile (fun x => !(x == c)) ≠ [] := by
  induction l with
  | nil => simp [hasChar] at h
  | cons x t ih =>
    by_cases hx : (x == c) = true
    · simp [List.dropWhile_cons, hx]
    · have hm : hasChar c t = true := by
        simp only [hasChar, Bool.or_eq_true] at h
        rcases h with h | h
        · exact absurd h hx
        · exact h
      simp only [List.dropWhile_cons, hx]
      simpa using ih hm

theorem dropWhile_nil_of_no_char (c : Char) (l : List Char) (h : hasChar c l = false) :
    l.dropWhile (fun x => !(x == c)) = [] := by
  induction l with
  | nil => rfl
  | cons x t ih =>
    have hx : (x == c) = false ∧ hasChar c t = false := by
      simp only [hasChar, Bool.or_eq_false_iff] at h
      exact h
    simp only [List.dropWhile_cons, hx.1]
    simpa using ih hx.2

theorem hasChar_reverse (c : Char) (l : List Char) :
    hasChar c l.reverse = hasChar c l := by
  induction l with
  | nil => rfl
  | cons x t ih =>
    rw [List.reverse_cons, hasChar_append, ih]
    simp [hasChar, Bool.or_comm]

theorem takeToLastBrace_append_right (a b : List Char) (h : hasChar '}' b = false) :
    takeToLastBrace (a ++ b) = takeToLastBrace a := by
  unfold takeToLastBrace
  rw [List.reverse_append,
    dropWhile_append_all _ b.reverse a.reverse
      (dropWhile_nil_of_no_char '}' b.reverse (by rw [hasChar_reverse]; exact h))]

theorem takeToLastBrace_append_left (a b : List Char) (h : hasChar '}' b = true) :
    takeToLastBrace (a ++ b) = a ++ takeToLastBrace b := by
  unfold takeToLastBrace
  rw [List.reverse_append,
    dropWhile_append_ne _ b.reverse a.reverse
      (dropWhile_ne_nil_of_hasChar '}' b.reverse (by rw [hasChar_reverse]; exact h)),
    List.reverse_append, List.reverse_reverse]

theorem takeToLastBrace_ne_nil (l : List Char) (h : hasChar '}' l = true) :
    takeToLastBrace l ≠ [] := by
  unfold takeToLastBrace
  intro hnil
  have hne := dropWhile_ne_nil_of_hasChar '}' l.reverse (by rw [hasChar_reverse]; exact h)
  exact hne (by simpa using congrArg List.reverse hnil)

theorem findCommitSpan_append (a S : List Char) (hq : hasChar '"' S = false)
    (hc : hasChar ':' S = false) (hbr : hasChar '}' S = false)
    (hlb : hasChar '{' S = false) :
    findCommitSpan (a ++ S) = findCommitSpan a := by
  unfold findCommitSpan
  rw [findStart_append_eq a S hq hc hbr hlb]
  cases hfs : findStart a with
  | none => rfl
  | some r => simp [takeToLastBrace_append_right r S hbr]

theorem findCommitSpan_prepend (P l : List Char) (h : hasChar '{' P = false) :
    findCommitSpan (P ++ l) = findCommitSpan l := by
  unfold findCommitSpan
  rw [findStart_prepend P l h]

/-- Wrapping a message in brace-free decoration before and after leaves the
extractor's result unchanged: the regex span is literally the same string. -/
theorem extractCommit_wrap (P S l : List Char) (hq : hasChar '"' S = false)
    (hc : hasChar ':' S = false) (hbr : hasChar '}' S = false)
    (hlb : hasChar '{' S = false) (hP : hasChar '{' P = false) :
    extractCommit (P ++ l ++ S) = extractCommit l := by
  unfold extractCommit
  rw [List.append_assoc, findCommitSpan_prepend P _ hP, findCommitSpan_append l S hq hc hbr hlb]

/-! ### Invariants of the fallback engine -/

theorem liveBodyResult_success (env : TrainEnv) (clean : String) (j : Json) :
    (liveBodyResult env clean j).success = true := by
  unfold liveBodyResult
  cases j <;> first | rfl | ((repeat' split) <;> rfl)

theorem liveResult_success (env : TrainEnv) (clean : String) :
    (liveResult env clean).success = true := by
  unfold liveResult
  (repeat' split) <;> first | rfl | exact liveBodyResult_success env clean _

theorem get_pnr_status_success (env : TrainEnv) (pnr : String) :
    (get_pnr_status env pnr).success = true := by
  unfold get_pnr_status
  (repeat' split) <;> first | rfl | exact liveResult_success env _

theorem liveBodyResult_keys (env : TrainEnv) (clean : String) (j : Json) :
    (liveBodyResult env clean j).data.map Prod.fst = pnrKeys := by
  unfold liveBodyResult
  cases j <;> first | rfl | ((repeat' split) <;> rfl)

theorem liveResult_keys (env : TrainEnv) (clean : String) :
    (liveResult env clean).data.map Prod.fst = pnrKeys := by
  unfold liveResult
  (repeat' split) <;> first | rfl | exact liveBodyResult_keys env clean _

theorem get_pnr_status_keys (env : TrainEnv) (pnr : String) :
    (get_pnr_status env pnr).data.map Prod.fst = pnrKeys := by
  unfold get_pnr_status
  (repeat' split) <;> first | rfl | exact liveResult_keys env _

theorem strDataAppend (a b : String) : (a ++ b).data = a.data ++ b.data := rfl

theorem format_success_ne (r : PnrResult) (h : r.success = true) :
    format_train_response r ≠ pnrFailMsg := by
  unfold format_train_response
  rw [h]
  rw [if_neg (by simp)]
  intro hEq
  have h2 := congrArg (fun s => s.data.head?) hEq
  have h3 : some '🚆' = some '❌' := h2
  exact absurd h3 (by decide)

/-! ### The claim theorems -/

/-- C1: for every environment (key present or absent, any live-call
outcome: timeout, non-200 status, malformed body) and every input key,
`get_pnr_status` returns a result whose `success` field is true — the
simulated layer is unconditional, and no layer ever produces
`success = false`. -/
theorem c1_get_pnr_status_always_success (env : TrainEnv) (pnr : String) :
    (get_pnr_status env pnr).success = true :=
  get_pnr_status_success env pnr

/-- C2: whenever classification cannot succeed — the API key is missing,
the upstream call raises, the status is non-success, or a response body
fails to parse as JSON — `route_user_intent` returns exactly the object
with intent general_query and empty entities, and (being a total function
of its environment) never propagates an error to the caller. -/
theorem c2_route_user_intent_degrades (env : GrokEnv) (text : String)
    (h : upstreamFails env) : route_user_intent env text = fallbackIntent := by
  unfold route_user_intent
  rcases h with h | h | ⟨code, body, hob, hfail⟩
  · simp [h]
  · cases hk : pyTruthyStr env.key <;> simp [hk, h]
  · cases hk : pyTruthyStr env.key
    · simp [hk]
    · rw [hob]
      simp only [hk, Bool.not_true, Bool.false_eq_true, if_false]
      rcases hfail with hcode | henv | ⟨content, hcon, hparse⟩
      · simp [hcode]
      · by_cases hrs : raisesForStatus code = true
        · simp [hrs]
        · simp [hrs, henv]
      · by_cases hrs : raisesForStatus code = true
        · simp [hrs]
        · simp [hrs, hcon, hparse]

/-- C2 witness: the concrete environment with no API key (and a raised
upstream call) degrades to the general_query object. -/
theorem c2_route_user_intent_degrades_witness :
    upstreamFails { key := none, outcome := UpstreamOutcome.netError } ∧
    route_user_intent { key := none, outcome := UpstreamOutcome.netError } "hello"
      = fallbackIntent :=
  ⟨Or.inl rfl, c2_route_user_intent_degrades _ "hello" (Or.inl rfl)⟩

/-- C3 counterexample: `contentC3` contains more than one candidate
structured object, and the smallest well-formed one whose discriminator
equals SEND_EMAIL (`smallestC3`) parses — yet the extractor does not select
it: its greedy span runs from the first brace to the last brace of the
whole text, that span fails to parse, and the raw text (no commit object)
is returned. -/
theorem c3_smallest_object_counterexample :
    jsonParse smallestC3
      = some (Json.obj [("action", Json.str "SEND_EMAIL"), ("x", Json.num 2 0)]) ∧
    findCommitSpan contentC3
      = some (("\x7b\"a\": 1\x7d \x7b\"action\": \"SEND_EMAIL\", \"x\": 2\x7d").data) ∧
    extractCommit contentC3 = none ∧
    processContent contentC3 = DraftResult.text contentC3 :=
  ⟨rfl, rfl, rfl, rfl⟩

/-- C3 (amended): the extractor selects the greedy span, not the smallest
object: for every message that begins with the complete well-formed commit
object and whose remaining text still contains a closing brace, the
matched span runs to the last closing brace of the whole message and is
strictly larger than the smallest well-formed discriminator object (which
parses on its own). -/
theorem c3_greedy_span_amended (t : List Char) (h : hasChar '}' t = true) :
    findCommitSpan (commitObjLit ++ t) = some (commitObjLit ++ takeToLastBrace t) ∧
    commitObjLit.length < (commitObjLit ++ takeToLastBrace t).length ∧
    jsonParse commitObjLit = some (Json.obj [("action", Json.str "SEND_EMAIL")]) := by
  refine ⟨?_, ?_, rfl⟩
  · rw [show commitObjLit ++ t = '{' :: (commitTailLit ++ t) from rfl]
    unfold findCommitSpan
    rw [show findStart ('{' :: (commitTailLit ++ t))
        = (if '{' == '{' && hasOccBrace (commitTailLit ++ t)
           then some ('{' :: (commitTailLit ++ t))
           else findStart (commitTailLit ++ t)) from rfl]
    rw [hasOccBrace_append_true commitTailLit t (by rfl)]
    rw [if_pos (show ('{' == '{' && true) = true from rfl)]
    show some (takeToLastBrace ('{' :: (commitTailLit ++ t))) = _
    rw [show ('{' :: (commitTailLit ++ t) : List Char) = commitObjLit ++ t from rfl]
    rw [takeToLastBrace_append_left commitObjLit t h]
  · have hne := takeToLastBrace_ne_nil t h
    rw [List.length_append]
    have hpos : 0 < (takeToLastBrace t).length := List.length_pos.mpr hne
    omega

/-- C3 amended witness: with a trailing second object the span strictly
extends past the smallest commit object. -/
theorem c3_greedy_span_amended_witness :
    hasChar '}' (" \x7b\"x\": 1\x7d".data) = true ∧
    (findCommitSpan (commitObjLit ++ (" \x7b\"x\": 1\x7d".data))
       = some (commitObjLit ++ takeToLastBrace (" \x7b\"x\": 1\x7d".data)) ∧
     commitObjLit.length
       < (commitObjLit ++ takeToLastBrace (" \x7b\"x\": 1\x7d".data)).length ∧
     jsonParse commitObjLit = some (Json.obj [("action", Json.str "SEND_EMAIL")])) :=
  ⟨rfl, c3_greedy_span_amended (" \x7b\"x\": 1\x7d".data) rfl⟩

/-- C4: whenever the upstream call succeeds, the discriminator pattern is
found in the assistant's content (the regex matches a span), but the
extracted span fails to parse as JSON, `draft_email_interactive` returns
the raw response text — a text value, not a commit object — so the caller
shows the user the text instead of silence. -/
theorem c4_parse_failure_returns_raw (env : GrokEnv)
    (hist : List (String × String)) (u r : String) (code : Nat)
    (body content span : List Char)
    (hk : pyTruthyStr env.key = true)
    (ho : env.outcome = UpstreamOutcome.resp code body)
    (hc : raisesForStatus code = false)
    (he : envelopeContent body = some content)
    (hs : findCommitSpan content = some span)
    (hp : spanParse span = none) :
    draft_email_interactive env hist u r = DraftResult.text content := by
  unfold draft_email_interactive processContent
  rw [ho]
  simp [hk, hc, he, hs, hp]

/-- C4 witness: a concrete envelope whose content holds the discriminator
pattern but is not valid JSON; the function returns that raw content. -/
theorem c4_parse_failure_returns_raw_witness :
    pyTruthyStr envC4.key = true ∧
    envC4.outcome = UpstreamOutcome.resp 200 bodyC4 ∧
    raisesForStatus 200 = false ∧
    envelopeContent bodyC4 = some contentC4 ∧
    findCommitSpan contentC4 = some contentC4 ∧
    spanParse contentC4 = none ∧
    draft_email_interactive envC4 [] "User" "Unknown" = DraftResult.text contentC4 :=
  ⟨rfl, rfl, rfl, rfl, rfl, rfl,
    c4_parse_failure_returns_raw envC4 [] "User" "Unknown" 200 bodyC4 contentC4 contentC4
      rfl rfl rfl rfl rfl rfl⟩

/-- C5: commit extraction is invariant under markdown code-fence wrapping:
for every message, extraction applied to the fenced form yields exactly
the same result as on the unwrapped form — in particular the very same
parsed commit object whenever one is produced — because the fences contain
no braces, no quote and no colon, so the greedy span is literally the same
string. -/
theorem c5_fence_wrap_invariant (j : List Char) :
    extractCommit (fenceWrap j) = extractCommit j := by
  unfold fenceWrap
  exact extractCommit_wrap ("```json\n".data) ("\n```".data) j rfl rfl rfl rfl rfl

/-- C6: every input key whose code normalization (space removal and strip)
equals the shortcut sentinel 8204567890 returns the fixed canonical record
— current_status CNF, from the Shortcut layer — without any network call,
whatever the environment. -/
theorem c6_shortcut_sentinel (env : TrainEnv) (pnr : String)
    (h : (cleanPnr pnr == DEMO_PNR) = true) :
    (get_pnr_status env pnr).layer = Layer.shortcut ∧
    (get_pnr_status env pnr).networkCalled = false ∧
    (get_pnr_status env pnr).data = demoData env DEMO_PNR ∧
    jGetD (get_pnr_status env pnr).data "current_status" = Json.str "CNF" := by
  have hceq : cleanPnr pnr = DEMO_PNR := eq_of_beq h
  unfold get_pnr_status
  rw [if_pos h, hceq]
  exact ⟨rfl, rfl, rfl, rfl⟩

/-- C6 witness: a key with interior and surrounding spaces normalizes to
the sentinel and hits the shortcut layer. -/
theorem c6_shortcut_sentinel_witness :
    (cleanPnr " 82 0456 7890 " == DEMO_PNR) = true ∧
    ((get_pnr_status envTrainNoKey " 82 0456 7890 ").layer = Layer.shortcut ∧
     (get_pnr_status envTrainNoKey " 82 0456 7890 ").networkCalled = false ∧
     (get_pnr_status envTrainNoKey " 82 0456 7890 ").data = demoData envTrainNoKey DEMO_PNR ∧
     jGetD (get_pnr_status envTrainNoKey " 82 0456 7890 ").data "current_status"
       = Json.str "CNF") :=
  ⟨rfl, c6_shortcut_sentinel envTrainNoKey " 82 0456 7890 " rfl⟩

/-- C7 (amended): the briefing degrades all-or-nothing, not per-field:
under any failure (missing key, raised call, bad status, unparseable body)
the result is the corresponding complete static bundle, so
`detailed_history` equals its static fallback exactly when every field
does; and the function is a total function of its environment, so an empty
events list or an arbitrary weather payload never raises. -/
theorem c7_all_or_nothing_amended (env : GrokEnv)
    (user festival quote author : String) (events : List (List (String × Json)))
    (weather : Json) (h : upstreamFails env) :
    generate_full_daily_briefing env user festival quote author events weather
      = (if pyTruthyStr env.key = true then briefingOnError user
         else briefingNoKey user) := by
  unfold generate_full_daily_briefing
  rcases h with h | h | ⟨code, body, hob, hfail⟩
  · simp [h]
  · cases hk : pyTruthyStr env.key <;> simp [hk, h]
  · cases hk : pyTruthyStr env.key
    · simp [hk]
    · rw [hob]
      simp only [hk, Bool.not_true, Bool.false_eq_true, if_false, if_true]
      rcases hfail with hcode | henv | ⟨content, hcon, hparse⟩
      · simp [hcode]
      · by_cases hrs : raisesForStatus code = true
        · simp [hrs]
        · simp [hrs, henv]
      · by_cases hrs : raisesForStatus code = true
        · simp [hrs]
        · simp [hrs, hcon, hparse]

/-- C7 amended witness: with no key and an empty events list the whole
static bundle (detailed_history included) is returned, without raising. -/
theorem c7_all_or_nothing_amended_witness :
    upstreamFails { key := none, outcome := UpstreamOutcome.netError } ∧
    generate_full_daily_briefing { key := none, outcome := UpstreamOutcome.netError }
        "Alex" "" "q" "a" [] Json.null
      = (if pyTruthyStr (none : Option String) = true then briefingOnError "Alex"
         else briefingNoKey "Alex") :=
  ⟨Or.inl rfl,
    c7_all_or_nothing_amended _ "Alex" "" "q" "a" [] Json.null (Or.inl rfl)⟩

/-- C7 counterexample: with the key present, an empty historical-events
list and a successful upstream reply, `detailed_history` is the
model-generated text, not either static fallback string — an empty events
list does not make the field degrade, so the claimed per-field fallback
fails. -/
theorem c7_per_field_fallback_counterexample :
    jGet (generate_full_daily_briefing envC7 "Alex" "" "q" "a" [] Json.null)
        "detailed_history" = some (Json.str "Rome fell.") ∧
    ("Rome fell." : String) ≠ "No historical fact found for today." ∧
    ("Rome fell." : String) ≠ "Could not generate historical fact." :=
  ⟨rfl, by decide, by decide⟩

/-- C8 (amended): `route_user_intent` performs no validation of
set_reminder entities: whenever the upstream call succeeds and its content
parses as JSON, the parsed classification is returned verbatim — null or
absent timestamps included.  The non-null-timestamp and today/tomorrow
resolution rules are instructions in the prompt to the upstream model, not
properties the code enforces. -/
theorem c8_verbatim_passthrough_amended (env : GrokEnv) (text : String)
    (code : Nat) (body content : List Char) (v : Json)
    (hk : pyTruthyStr env.key = true)
    (ho : env.outcome = UpstreamOutcome.resp code body)
    (hc : raisesForStatus code = false)
    (he : envelopeContent body = some content)
    (hp : jsonParse content = some v) :
    route_user_intent env text = v := by
  unfold route_user_intent
  rw [ho]
  simp [hk, hc, he, hp]

/-- C8 amended witness: the concrete null-timestamp classification is
passed through verbatim. -/
theorem c8_verbatim_passthrough_amended_witness :
    pyTruthyStr envC8.key = true ∧
    envC8.outcome = UpstreamOutcome.resp 200 bodyC8 ∧
    raisesForStatus 200 = false ∧
    envelopeContent bodyC8 = some contentC8 ∧
    jsonParse contentC8 = some expectedC8 ∧
    route_user_intent envC8 "set a reminder" = expectedC8 :=
  ⟨rfl, rfl, rfl, rfl, rfl,
    c8_verbatim_passthrough_amended envC8 "set a reminder" 200 bodyC8 contentC8 expectedC8
      rfl rfl rfl rfl rfl⟩

/-- C8 counterexample: a reachable result of `route_user_intent` has
intent set_reminder and an entity whose timestamp field is null — the
claimed invariant (timestamp never null) does not hold of the function's
outputs. -/
theorem c8_null_timestamp_counterexample :
    route_user_intent envC8 "remind me to call mom every day at 9pm" = expectedC8 ∧
    jGet expectedC8 "intent" = some (Json.str "set_reminder") ∧
    jGet expectedC8 "entities" = some (Json.arr [Json.obj entC8]) ∧
    lookupLast entC8 "timestamp" = some Json.null :=
  ⟨rfl, rfl, rfl, rfl⟩

/-- C9: whatever layer produced the result, the data record of
`get_pnr_status` has exactly the ten documented keys, in order; and when
the live provider replies `{"status": true}` omitting every data field,
each field is filled with its documented `info.get` default — no
exception. -/
theorem c9_record_shape (env : TrainEnv) (pnr : String) :
    (get_pnr_status env pnr).data.map Prod.fst = pnrKeys ∧
    ((cleanPnr pnr == DEMO_PNR) = false → pyTruthyStr env.rapidApiKey = true →
      env.live = LiveOutcome.resp 200 statusTrueBody →
      (get_pnr_status env pnr).data = liveDefaultData (cleanPnr pnr)) := by
  refine ⟨get_pnr_status_keys env pnr, ?_⟩
  intro hd hk hl
  unfold get_pnr_status
  rw [hd]
  simp only [Bool.false_eq_true, if_false, hk, if_true]
  unfold liveResult
  rw [hl]
  rfl

/-- C9 witness: the live layer with a `{"status": true}` body produces the
ten keys and the all-defaults record. -/
theorem c9_record_shape_witness :
    (get_pnr_status envTrainLive "123").data.map Prod.fst = pnrKeys ∧
    (cleanPnr "123" == DEMO_PNR) = false ∧
    pyTruthyStr envTrainLive.rapidApiKey = true ∧
    envTrainLive.live = LiveOutcome.resp 200 statusTrueBody ∧
    (get_pnr_status envTrainLive "123").data = liveDefaultData (cleanPnr "123") :=
  ⟨(c9_record_shape envTrainLive "123").1, rfl, rfl, rfl,
    (c9_record_shape envTrainLive "123").2 rfl rfl rfl⟩

/-- C10: `get_pnr_status` is total in this model (every environment and
input is mapped to a result value — no raising path exists, every fallible
operation being inside the `try`), and `format_train_response` never takes
its failure branch on a result `get_pnr_status` produced: the
"Could not fetch PNR status" message is unreachable. -/
theorem c10_failure_branch_unreachable (env : TrainEnv) (pnr : String) :
    format_train_response (get_pnr_status env pnr) ≠ pnrFailMsg :=
  format_success_ne _ (get_pnr_status_success env pnr)
